import Mathlib

/-!
Verification of the File Tracking & Command Registry Engine of
`src/runtime.js` (class `CmmandsUniversal`).

The JavaScript source is shallowly embedded: each method is translated to a
Lean function over explicit state.  Instance fields that the constructor
would have produced from engine-factory methods (`this.ai`, `this.security`,
`this.fs`, `this.path`) are abstracted as parameters of the methods that read
them, because the analysis/classification engines are declared external
collaborators by the specification; everything the claims turn on (control
flow, name construction, registry updates, error paths) is translated
directly from the source.  JavaScript `Map` objects become insertion-ordered
association lists, `Set` objects become duplicate-free lists, exceptions
become an explicit outcome type.
-/

namespace Cmmands

/-! ## JavaScript string and path primitives -/

/-- JavaScript `haystack.includes(needle)`: substring containment. -/
def jsIncludes (s sub : String) : Bool :=
  s.data.tails.any (fun t => sub.data.isPrefixOf t)

/-- ASCII lower-casing of one character (JavaScript `toLowerCase()` on the
ASCII inputs this engine handles). -/
def jsCharLower (c : Char) : Char :=
  if 'A' ≤ c && c ≤ 'Z' then Char.ofNat (c.toNat + 32) else c

/-- JavaScript `s.toLowerCase()`. -/
def jsToLower (s : String) : String := String.mk (s.data.map jsCharLower)

/-- JavaScript `s.startsWith(pre)`. -/
def jsStartsWith (s pre : String) : Bool := pre.data.isPrefixOf s.data

/-- Splitting a character list at every separator, keeping empty segments —
the semantics of JavaScript `split` on a single-character-alternative
regular expression. -/
def splitCharsAux (p : Char → Bool) : List Char → List Char →
    List (List Char)
  | [], acc => [acc.reverse]
  | c :: cs, acc =>
      if p c then acc.reverse :: splitCharsAux p cs []
      else splitCharsAux p cs (c :: acc)

/-- JavaScript `query.split(/:|-|_/)` as used at runtime.js:1776. -/
def splitWords (s : String) : List String :=
  (splitCharsAux (fun c => c == ':' || c == '-' || c == '_') s.data []).map
    String.mk

/-- Node `path.join(a, b)` for the simple entry names the scan produces. -/
def pathJoin (a b : String) : String := a ++ "/" ++ b

/-- Node `path.basename(p)`: the last `/`-separated component. -/
def jsBasename (p : String) : String :=
  (((splitCharsAux (fun c => c == '/') p.data []).map String.mk).getLast?).getD
    p

/-- Node `path.extname(name)`: suffix from the last dot, empty for a leading
dot or no dot at all. -/
def extname (name : String) : String :=
  match (((List.range name.length).filter
      (fun i => name.data.get? i == some '.'))).getLast? with
  | some i => if i == 0 then "" else String.mk (name.data.drop i)
  | none => ""

/-- Node `path.basename(name, extname(name))` as used at runtime.js:1039. -/
def basenameNoExt (name : String) : String :=
  let e := extname name
  if e ≠ "" && e.data.isSuffixOf name.data && name.length > e.length then
    String.mk (name.data.take (name.length - e.length))
  else name

/-- Character step of the generated-name normalization at runtime.js:1040:
after `toLowerCase()`, every character outside `[a-z0-9]` becomes a dash. -/
def safeChar (c : Char) : Char :=
  if ('a' ≤ c && c ≤ 'z') || ('0' ≤ c && c ≤ '9') then c else '-'

/-- runtime.js:1040, `baseName.toLowerCase().replace(/[^a-z0-9]/g, '-')`. -/
def safeName (baseName : String) : String :=
  String.mk ((jsToLower baseName).data.map safeChar)

/-! ## JavaScript Map / Set embedding

A `Map` keeps insertion order; `set` on an existing key replaces the value in
place, on a fresh key appends.  A `Set` deduplicates while keeping insertion
order. -/

/-- JavaScript `map.get(k)`. -/
def mapGet {α : Type} : List (String × α) → String → Option α
  | [], _ => none
  | (k', v) :: rest, k => if k' == k then some v else mapGet rest k

/-- JavaScript `map.set(k, v)`. -/
def mapSet {α : Type} : List (String × α) → String → α → List (String × α)
  | [], k, v => [(k, v)]
  | (k', v') :: rest, k, v =>
      if k' == k then (k, v) :: rest else (k', v') :: mapSet rest k v

/-- JavaScript `set.add(x)`. -/
def jsSetAdd (s : List String) (x : String) : List String :=
  if s.contains x then s else s ++ [x]

/-- Adding a batch of elements to a JavaScript `Set`. -/
def jsSetAddAll (s : List String) (xs : List String) : List String :=
  xs.foldl jsSetAdd s

/-! ## The class method table

`definedMethods` lists exactly the methods the `class CmmandsUniversal`
body defines (runtime.js declares no others, and no prototype assignments
exist elsewhere in the repository).  Accessing any other `this._xyz` yields
`undefined`, so calling or `.bind`-ing it raises a `TypeError`. -/

def definedMethods : List String :=
  ["constructor",
   "_detectUniversalPlatform",
   "_detectEnvironment",
   "_createUniversalFileSystem",
   "_createRealBrowserFileSystem",
   "_createRealNodeFileSystem",
   "_createLanguageParser",
   "_createRealAIEngine",
   "_createCacheSystem",
   "startTracking",
   "_buildDependencyGraph",
   "_generateAdvancedCommandsFromFile",
   "_detectAdvancedLanguage",
   "_createAdvancedCommands",
   "_generateCrossFileCommands",
   "_executeAdvancedOpen",
   "_executeFunctionWithUI",
   "_generateProjectInsights",
   "_setupRealBrowserMagic",
   "_setupRealBrowserInterface",
   "executeCommand",
   "_findCommandSuggestions",
   "getCommands",
   "getProjectStats",
   "refresh"]

/-- Whether `this.m` resolves to a class method. -/
def hasMethod (m : String) : Bool := definedMethods.contains m

/-- Evaluating `this.m.bind(this)` or `this.m(...)`: a `TypeError` is raised
when `m` is not a method of the class. -/
def bindMethod (m : String) : Except String Unit :=
  if hasMethod m then Except.ok () else
    Except.error ("TypeError: this." ++ m ++ " is undefined")

/-- runtime.js:95-106, `_createUniversalFileSystem`: the `platformFS` object
literal evaluates `this._createX.bind(this)` for all five platform factories
before any platform dispatch happens, so the bindings are checked for every
platform. -/
def createUniversalFileSystemRun : Except String Unit := do
  bindMethod "_createRealBrowserFileSystem"
  bindMethod "_createMobileFileSystem"
  bindMethod "_createRealNodeFileSystem"
  bindMethod "_createDenoFileSystem"
  bindMethod "_createBunFileSystem"

/-- runtime.js:7-31, the constructor body after the plain field assignments:
each engine field is produced by a method call, in source order.  The
`platformName` argument records that none of these calls depends on the
detected platform. -/
def constructorRun (_platformName : String) : Except String Unit := do
  bindMethod "_detectUniversalPlatform"
  createUniversalFileSystemRun
  bindMethod "_createUniversalPath"
  bindMethod "_createSecurityEngine"
  bindMethod "_createRealAIEngine"
  bindMethod "_createLanguageParser"
  bindMethod "_setupRealBrowserMagic"
  bindMethod "_createCacheSystem"

/-! ## Data model -/

deriving instance DecidableEq for Except

/-- A command descriptor as pushed by `_createAdvancedCommands`
(runtime.js:1043-1213).  The `action` field abstracts the eventual outcome of
invoking the stored closure: `Except.ok` a result, `Except.error` a thrown or
rejected failure. -/
structure Cmd where
  name : String
  description : String
  category : String := ""
  action : Except String String := Except.ok ""
deriving DecidableEq

/-- A function discovered by the analysis engine (name and parameter list). -/
structure FnInfo where
  name : String
  params : List String
deriving DecidableEq

/-- A class discovered by the analysis engine. -/
structure ClsInfo where
  name : String
  ext? : Option String
deriving DecidableEq

/-- The metric fields of an analysis result that `_createAdvancedCommands`
reads (`analysis.metrics.lines`, `analysis.metrics.complexity`). -/
structure Metrics where
  lines : Nat
  complexity : Nat
deriving DecidableEq

/-- The result of `this.ai.analyze` (runtime.js:550-628).  The analysis
engine is a pluggable collaborator per the specification, so its output is a
parameter of the synthesis model; only the fields `_createAdvancedCommands`
branches on are kept. -/
structure Analysis where
  functions : List FnInfo
  classes : List ClsInfo
  metrics : Metrics
  codeSmells : List String
  suggestions : List String
  dependencies : List String
deriving DecidableEq

/-- One entry of `this.security.scan`'s result as read at runtime.js:1138-1147
(only `issue.pattern` is consulted). -/
structure SecIssue where
  pattern : String
deriving DecidableEq

/-- The outcome of `JSON.parse(content)` on a `package.json` file
(runtime.js:1153): the `scripts` entries in object order, and whether
`pkg.dependencies || pkg.devDependencies` is truthy. -/
structure Pkg where
  scripts : List (String × String)
  hasDeps : Bool
deriving DecidableEq

/-- A tracked-file record as stored at runtime.js:959-968 (fields irrelevant
to the claims are dropped). -/
structure TrackedFile where
  path : String
  name : String
  language : String
  commands : List String
  dependencies : List String
deriving DecidableEq

/-- A dependency-graph node as stored at runtime.js:885-891. -/
structure DepNode where
  path : String
  name : String
  language : String
  dependencies : List String
  dependents : List String
deriving DecidableEq

/-! ## Command synthesis (`_createAdvancedCommands`, runtime.js:1037-1216)

Each block below mirrors one `commands.push(...)` site, in source order,
with the exact name/description template literals and guard conditions. -/

/-- The two unconditional file commands (runtime.js:1043-1061) plus the
metrics command (runtime.js:1064-1073, whose guard `if (analysis.metrics)`
always holds since `metrics` is an object). -/
def cmdsFileOps (fileName sn : String) : List Cmd :=
  [{ name := "file:open:" ++ sn,
     description := "Open " ++ fileName ++ " with analysis",
     category := "file" },
   { name := "file:edit:" ++ sn,
     description := "Edit " ++ fileName ++ " with syntax highlighting",
     category := "file" },
   { name := "analyze:metrics:" ++ sn,
     description := "Show code metrics for " ++ fileName,
     category := "analysis" }]

/-- runtime.js:1075-1084: code-smell refactor command. -/
def cmdsSmells (fileName sn : String) (an : Analysis) : List Cmd :=
  if an.codeSmells.isEmpty then [] else
    [{ name := "refactor:smells:" ++ sn,
       description := "Refactor code smells in " ++ fileName,
       category := "refactor" }]

/-- runtime.js:1087-1134: per-function execute/test commands, per-class
instantiate commands and the dependency listing, only for JavaScript or
TypeScript files. -/
def cmdsJs (fileName sn language : String) (an : Analysis) : List Cmd :=
  if language == "javascript" || language == "typescript" then
    (an.functions.flatMap (fun f =>
      [{ name := "execute:" ++ sn ++ ":" ++ f.name,
         description := "Execute " ++ f.name ++ "(" ++
           String.intercalate ", " f.params ++ ")",
         category := "execution" },
       { name := "test:" ++ sn ++ ":" ++ f.name,
         description := "Generate test for " ++ f.name ++ "()",
         category := "testing" }])) ++
    (an.classes.map (fun c =>
      { name := "instantiate:" ++ sn ++ ":" ++ c.name,
        description := "Create " ++ c.name ++ " instance" ++
          (match c.ext? with
           | some e => " extends " ++ e
           | none => ""),
        category := "execution" })) ++
    (if an.dependencies.isEmpty then [] else
      [{ name := "deps:show:" ++ sn,
         description := "Show dependencies for " ++ fileName,
         category := "dependencies" }])
  else []

/-- runtime.js:1137-1148: one fix command per security issue, indexed. -/
def cmdsSecurity (sn : String) (issues : List SecIssue) : List Cmd :=
  issues.enum.map (fun p =>
    { name := "security:fix:" ++ sn ++ ":" ++ toString p.1,
      description := "Fix security issue: " ++
        String.mk (p.2.pattern.data.take 50) ++ "...",
      category := "security" })

/-- runtime.js:1151-1178: the `package.json` branch.  `pkgParse?` is the
outcome of `JSON.parse(content)`: `none` when the parse threw (the
`catch (e) {}` swallows it, yielding no commands). -/
def cmdsPkg (fileName : String) (pkgParse? : Option Pkg) : List Cmd :=
  if fileName == "package.json" then
    match pkgParse? with
    | some pkg =>
        (pkg.scripts.map (fun kv =>
          { name := "run:" ++ kv.1,
            description := "Run: " ++ kv.1 ++ " - " ++ kv.2,
            category := "npm" })) ++
        (if pkg.hasDeps then
          [{ name := "deps:audit",
             description := "Audit package dependencies",
             category := "security" }]
         else [])
    | none => []
  else []

/-- runtime.js:1180-1189: the docker-compose command. -/
def cmdsDocker (fileName : String) : List Cmd :=
  if fileName == "docker-compose.yml" || fileName == "docker-compose.yaml" then
    [{ name := "docker:compose:up", description := "docker-compose up",
       category := "docker" }]
  else []

/-- runtime.js:1192-1201: the AI-suggestions command. -/
def cmdsAi (fileName sn : String) (an : Analysis) : List Cmd :=
  if an.suggestions.isEmpty then [] else
    [{ name := "ai:suggestions:" ++ sn,
       description := "AI suggestions for " ++ fileName, category := "ai" }]

/-- runtime.js:1204-1213: the performance command. -/
def cmdsPerf (fileName sn : String) (an : Analysis) : List Cmd :=
  if an.metrics.complexity > 15 || an.metrics.lines > 100 then
    [{ name := "perf:analyze:" ++ sn,
       description := "Performance analysis for " ++ fileName,
       category := "performance" }]
  else []

/-- `_createAdvancedCommands(filePath, fileName, content, language, analysis,
securityIssues)` (runtime.js:1037-1216), assembled in source push order. -/
def createAdvancedCommands (fileName _content language : String)
    (an : Analysis) (issues : List SecIssue) (pkgParse? : Option Pkg) :
    List Cmd :=
  let sn := safeName (basenameNoExt fileName)
  cmdsFileOps fileName sn ++ cmdsSmells fileName sn an ++
  cmdsJs fileName sn language an ++ cmdsSecurity sn issues ++
  cmdsPkg fileName pkgParse? ++ cmdsDocker fileName ++
  cmdsAi fileName sn an ++ cmdsPerf fileName sn an

/-! ## File tracking (`_generateAdvancedCommandsFromFile`, runtime.js:914-976) -/

/-- The outcome of `await this.fs.readFile(filePath)`: the storage substrate
is an external collaborator, so the read result is a parameter. -/
inductive ReadResult
  | ok (content : String)
  | err (msg : String)
deriving DecidableEq

/-- The tracker state this method touches: the command registry
(`this.commandRegistry`) and the tracked-file map (`this.trackedFiles`). -/
structure TrackState where
  commandRegistry : List (String × Cmd)
  trackedFiles : List (String × TrackedFile)
deriving DecidableEq

/-- runtime.js:953-956: `commands.forEach(cmd =>
this.commandRegistry.set(cmd.name, cmd))`. -/
def registerAll (reg : List (String × Cmd)) (cmds : List Cmd) :
    List (String × Cmd) :=
  cmds.foldl (fun r c => mapSet r c.name c) reg

/-- `_generateAdvancedCommandsFromFile(filePath)` (runtime.js:914-976).
`cached?` is the cache lookup at line 916 (a hit returns immediately);
`read` the filesystem read; `language`, `an`, `issues`, `pkgParse?` the
results of the external classifier/analyzer/security/JSON collaborators.
On a read failure the `catch` at line 972 logs and returns `[]`, leaving the
state untouched; an empty content returns `[]` at line 925, likewise without
touching the state; otherwise the synthesized commands are registered and
the tracked-file entry replaced. -/
def generateAdvancedCommandsFromFile (filePath : String)
    (cached? : Option (List Cmd)) (read : ReadResult)
    (language : String) (an : Analysis) (issues : List SecIssue)
    (pkgParse? : Option Pkg) (st : TrackState) : List Cmd × TrackState :=
  match cached? with
  | some cs => (cs, st)
  | none =>
    match read with
    | ReadResult.err _ => ([], st)
    | ReadResult.ok content =>
      if content == "" then ([], st)
      else
        let fileName := jsBasename filePath
        let cmds := createAdvancedCommands fileName content language an
          issues pkgParse?
        (cmds,
         { commandRegistry := registerAll st.commandRegistry cmds,
           trackedFiles := mapSet st.trackedFiles filePath
             { path := filePath, name := fileName, language := language,
               commands := cmds.map Cmd.name,
               dependencies := an.dependencies } })

/-! ## Registry lookup and dispatch (runtime.js:1721-1810) -/

/-- `getCommands()` without filter (runtime.js:1783-1791): the registry
entries in insertion order, named by their keys. -/
def getCommands (reg : List (String × Cmd)) : List Cmd :=
  reg.map (fun p => { p.2 with name := p.1 })

/-- The filter predicate of `_findCommandSuggestions` (runtime.js:1766-1778),
applied to an already-lowercased query: substring containment in the
lowercased name or description, or containment of every fragment of the
query split on `:`, `-`, `_`. -/
def matchesCmd (q : String) (c : Cmd) : Bool :=
  let n := jsToLower c.name
  let d := jsToLower c.description
  jsIncludes n q || jsIncludes d q ||
    (splitWords q).all (fun w => jsIncludes n w || jsIncludes d w)

/-- `_findCommandSuggestions(query)` (runtime.js:1761-1781): filter in
registry order, then `slice(0, 5)`. -/
def findCommandSuggestions (reg : List (String × Cmd)) (query : String) :
    List Cmd :=
  ((getCommands reg).filter (matchesCmd (jsToLower query))).take 5

/-- An observable outcome of a method: a returned value or a raised
(thrown/rejected) error. -/
inductive ExecOutcome
  | ok (v : String)
  | thrown (msg : String)
deriving DecidableEq

/-- `executeCommand(commandName, args)` (runtime.js:1721-1759).  `secAllowed`
abstracts `this.security.validateCommand(...).allowed`.  A missing name
computes and logs the suggestions, then `throw new Error('Command not
found: ...')` (line 1738); a failing action is logged and re-thrown (line
1757).  The returned list is the suggestions that were logged (empty on the
other paths). -/
def executeCommand (reg : List (String × Cmd)) (secAllowed : Bool)
    (name : String) : ExecOutcome × List Cmd :=
  match mapGet reg name with
  | none =>
      (ExecOutcome.thrown ("Command not found: " ++ name),
       findCommandSuggestions reg name)
  | some cmd =>
      if !secAllowed then (ExecOutcome.thrown "Command blocked", [])
      else
        match cmd.action with
        | Except.ok v => (ExecOutcome.ok v, [])
        | Except.error e => (ExecOutcome.thrown e, [])

/-! ## Directory scan (`_buildDependencyGraph`, runtime.js:863-912) -/

/-- One entry of `this.fs.readdir`. -/
structure FsEntry where
  name : String
  isDirectory : Bool
deriving DecidableEq

/-- The storage substrate (external collaborator): directory listing and
file contents. -/
structure FsModel where
  readdir : String → List FsEntry
  readFile : String → String

/-- The pruned directory names, from the regular expression
`/^(node_modules|\.git|dist|build)$/` at runtime.js:876. -/
def ignoreNames : List String := ["node_modules", ".git", "dist", "build"]

/-- The body of the `for (const entry of entries)` loop at
runtime.js:872-893 for one directory, returning the sub-directories queued
and the graph nodes inserted.  Non-ignored directories are queued; on the
first file entry, line 881 calls `this._detectLanguage(...)` which is not a
method of the class (see `definedMethods`), so a `TypeError` is raised after
the `readFile` of line 880; the `catch (error)` at line 894 swallows it and
the remaining entries of this directory are skipped, so no graph node is
ever inserted (line 885 is unreachable). -/
def processEntries (currentPath : String) :
    List FsEntry → List String × List (String × DepNode)
  | [] => ([], [])
  | e :: rest =>
      if e.isDirectory then
        if ignoreNames.contains e.name then processEntries currentPath rest
        else
          let r := processEntries currentPath rest
          (pathJoin currentPath e.name :: r.1, r.2)
      else ([], [])

/-- The scan's observable result: directories listed (in order), the queue
remaining when the fuel ran out (empty iff the `while` loop finished), and
the dependency-graph insertions. -/
structure ScanResult where
  visited : List String
  queue : List String
  graph : List (String × DepNode)
deriving DecidableEq

/-- The `while (queue.length > 0)` loop at runtime.js:866-897, unrolled on
explicit fuel (the source has no bound of its own; a run whose final `queue`
is empty is exactly a run the source loop completes). -/
def scanLoop (fs : FsModel) :
    Nat → List String → List String → List (String × DepNode) → ScanResult
  | 0, queue, visited, graph =>
      { visited := visited, queue := queue, graph := graph }
  | _ + 1, [], visited, graph =>
      { visited := visited, queue := [], graph := graph }
  | fuel + 1, p :: rest, visited, graph =>
      let pe := processEntries p (fs.readdir p)
      scanLoop fs fuel (rest ++ pe.1) (visited ++ [p]) (graph ++ pe.2)

/-- `_buildDependencyGraph(rootPath)`'s traversal, started from
`queue = [rootPath]` (runtime.js:864). -/
def scanRun (fs : FsModel) (fuel : Nat) (root : String) : ScanResult :=
  scanLoop fs fuel [root] [] []

/-! ## Inverse edges (runtime.js:899-909) -/

/-- The paths of the nodes whose raw dependency strings contain this node's
file name or path (`d.includes(fileInfo.name) || d.includes(filePath)`). -/
def referrers (g : List DepNode) (f : DepNode) : List String :=
  (g.filter (fun o =>
    o.dependencies.any (fun d =>
      jsIncludes d f.name || jsIncludes d f.path))).map DepNode.path

/-- The update of one node by the dependents loop: additions to
`fileInfo.dependents` happen only inside `fileInfo.dependencies.forEach`,
so a node with no forward dependencies is returned unchanged.  (When the
list is non-empty the same referrer set is added once per dependency; the
`Set` semantics make the repetitions no-ops, so a single batch add is
equivalent.) -/
def dependentsStep (g : List DepNode) (f : DepNode) : DepNode :=
  if f.dependencies.isEmpty then f
  else { f with dependents := jsSetAddAll f.dependents (referrers g f) }

/-- The full `for (const [filePath, fileInfo] of ...)` dependents loop.
Each iteration reads only `dependencies` fields (never mutated) and writes
only its own node's `dependents`, so a simultaneous map is equivalent. -/
def buildDependents (g : List DepNode) : List DepNode :=
  g.map (dependentsStep g)

/-! ## Engine state, `startTracking`, `refresh`, `initializeCMMANDS` -/

/-- The five instance maps cleared by `refresh` (runtime.js:1833-1837). -/
structure EngineState where
  commandRegistry : List (String × Cmd)
  trackedFiles : List (String × TrackedFile)
  dependencyGraph : List (String × DepNode)
  astCache : List (String × String)
  cache : List (String × List Cmd)
deriving DecidableEq

/-- The state with every map cleared. -/
def clearedState : EngineState :=
  { commandRegistry := [], trackedFiles := [], dependencyGraph := [],
    astCache := [], cache := [] }

/-- `startTracking(rootPath)` (runtime.js:806-861): the dependency-graph
walk runs first (its insertions are recorded into `dependencyGraph`), then
line 819 evaluates `this._findAllFiles(this.projectRoot)`, which is not a
method of the class (see `definedMethods`); the resulting `TypeError` is
caught at line 857 and re-thrown, so the method always raises before any
command is synthesized.  The third component lists the commands synthesized
during the call (always none). -/
def startTracking (fs : FsModel) (fuel : Nat) (root : String)
    (st : EngineState) : ExecOutcome × EngineState × List Cmd :=
  let scan := scanRun fs fuel root
  let st1 := { st with
    dependencyGraph :=
      scan.graph.foldl (fun g p => mapSet g p.1 p.2) st.dependencyGraph }
  (ExecOutcome.thrown "TypeError: this._findAllFiles is not a function",
   st1, [])

/-- `refresh()` (runtime.js:1831-1841): clear all five maps, then re-run
`startTracking` on the remembered root. -/
def refresh (fs : FsModel) (fuel : Nat) (root : String)
    (_st : EngineState) : ExecOutcome × EngineState × List Cmd :=
  startTracking fs fuel root clearedState

/-- `initializeCMMANDS(rootPath, options)` (runtime.js:1848-1874): construct
a `CmmandsUniversal` (outside any `try`), then `startTracking`; an engine
instance is returned only if both succeed. -/
def initializeCMMANDS (platformName root : String) (fs : FsModel)
    (fuel : Nat) : Except String EngineState :=
  match constructorRun platformName with
  | Except.error e => Except.error e
  | Except.ok _ =>
      match startTracking fs fuel root clearedState with
      | (ExecOutcome.thrown e, _, _) => Except.error e
      | (ExecOutcome.ok _, st, _) => Except.ok st

/-! ## Spec-side definitions

These two definitions follow the specification's words, not the source; they
exist only to compare the spec's described suggestion criterion against the
code's (claim C5). -/

/-- Spec-side edit distance (insert/delete/substitute, unit cost), recursing
on explicit fuel so that concrete instances reduce by evaluation; any fuel of
at least `xs.length + ys.length` is enough to never hit the `0` arm. -/
def specLevenshtein : Nat → List Char → List Char → Nat
  | 0, xs, ys => max xs.length ys.length
  | _ + 1, [], ys => ys.length
  | _ + 1, x :: xs, [] => (x :: xs).length
  | fuel + 1, x :: xs, y :: ys =>
      if x = y then specLevenshtein fuel xs ys
      else 1 + min (specLevenshtein fuel xs (y :: ys))
        (min (specLevenshtein fuel (x :: xs) ys) (specLevenshtein fuel xs ys))

/-- Spec-side "normalized edit-distance similarity above the fixed threshold
0.5": `1 - dist/maxlen > 1/2`, stated over naturals. -/
def specSimilarityAboveHalf (a b : String) : Bool :=
  let m := max a.length b.length
  2 * (m - specLevenshtein (a.length + b.length) a.data b.data) > m

/-! ## Concrete fixtures used by the counterexamples and witnesses -/

/-- An analysis result with nothing discovered (an empty or trivial file). -/
def emptyAnalysis : Analysis :=
  { functions := [], classes := [], metrics := { lines := 0, complexity := 1 },
    codeSmells := [], suggestions := [], dependencies := [] }

/-- An empty tracker state. -/
def st0 : TrackState := { commandRegistry := [], trackedFiles := [] }

/-- A registered command whose action fails. -/
def boomCmd : Cmd :=
  { name := "boom", description := "a command that explodes",
    action := Except.error "kaboom" }

/-- A command registered under its raw, unnormalized name `"Open File"`. -/
def cmdOpenFileRaw : Cmd := { name := "Open File", description := "first" }

/-- A command registered under the raw name `"open-file"`. -/
def cmdOpenFileDash : Cmd := { name := "open-file", description := "second" }

/-- A registered `deploy` command. -/
def deployCmd : Cmd := { name := "deploy", description := "Ship the build" }

/-- A tracked file already present before a failing re-read. -/
def tfA : TrackedFile :=
  { path := "/r/a.js", name := "a.js", language := "javascript",
    commands := ["file:open:a"], dependencies := [] }

/-- A tracker state already holding `tfA`. -/
def stWithA : TrackState :=
  { commandRegistry := [], trackedFiles := [("/r/a.js", tfA)] }

/-- The commands synthesized for a manifest whose `scripts` map holds one
`build` entry and which declares dependencies. -/
def pkgJsonCmds : List Cmd :=
  createAdvancedCommands "package.json" "{}" "json" emptyAnalysis []
    (some { scripts := [("build", "webpack")], hasDeps := true })

/-- A filesystem that is a pure directory chain twelve levels deep with one
file at the bottom. -/
def chainFs : FsModel :=
  { readdir := fun p =>
      if p == "r" then [{ name := "a", isDirectory := true }]
      else if p == "r/a" then [{ name := "b", isDirectory := true }]
      else if p == "r/a/b" then [{ name := "c", isDirectory := true }]
      else if p == "r/a/b/c" then [{ name := "d", isDirectory := true }]
      else if p == "r/a/b/c/d" then [{ name := "e", isDirectory := true }]
      else if p == "r/a/b/c/d/e" then [{ name := "f", isDirectory := true }]
      else if p == "r/a/b/c/d/e/f" then [{ name := "g", isDirectory := true }]
      else if p == "r/a/b/c/d/e/f/g" then
        [{ name := "h", isDirectory := true }]
      else if p == "r/a/b/c/d/e/f/g/h" then
        [{ name := "i", isDirectory := true }]
      else if p == "r/a/b/c/d/e/f/g/h/i" then
        [{ name := "j", isDirectory := true }]
      else if p == "r/a/b/c/d/e/f/g/h/i/j" then
        [{ name := "k", isDirectory := true }]
      else if p == "r/a/b/c/d/e/f/g/h/i/j/k" then
        [{ name := "l", isDirectory := true }]
      else if p == "r/a/b/c/d/e/f/g/h/i/j/k/l" then
        [{ name := "x.js", isDirectory := false }]
      else [],
    readFile := fun _ => "" }

/-- The directory of `chainFs` twelve levels below the root `"r"`. -/
def depth12Dir : String := "r/a/b/c/d/e/f/g/h/i/j/k/l"

/-- A filesystem in which every directory contains one subdirectory — the
footprint of a symlink cycle: the traversal never runs out of work. -/
def cycFs : FsModel :=
  { readdir := fun _ => [{ name := "d", isDirectory := true }],
    readFile := fun _ => "" }

/-- A root holding an ignored `node_modules` directory next to `src`. -/
def ignFs : FsModel :=
  { readdir := fun p =>
      if p == "r" then
        [{ name := "node_modules", isDirectory := true },
         { name := "src", isDirectory := true }]
      else [],
    readFile := fun _ => "" }

/-- A graph node with no forward dependencies. -/
def nodeA : DepNode :=
  { path := "/r/a.js", name := "a.js", language := "javascript",
    dependencies := [], dependents := [] }

/-- A graph node whose raw dependency string mentions `nodeA`'s file name. -/
def nodeB : DepNode :=
  { path := "/r/b.js", name := "b.js", language := "javascript",
    dependencies := ["./a.js"], dependents := [] }

/-- A two-node dependency graph in which `nodeB` references `nodeA`. -/
def gAB : List DepNode := [nodeA, nodeB]

/-! ## Helper lemmas -/

theorem mapGet_mapSet_self {α : Type} (m : List (String × α)) (k : String)
    (v : α) : mapGet (mapSet m k v) k = some v := by
  induction m with
  | nil => simp [mapSet, mapGet]
  | cons p rest ih =>
      cases h : p.1 == k with
      | true => simp [mapSet, mapGet, h]
      | false => simp [mapSet, mapGet, h, ih]

theorem mem_take_or {α : Type} (a : α) :
    ∀ (l : List α) (n : Nat), a ∈ l → a ∈ l.take n ∨ (l.take n).length = n := by
  intro l
  induction l with
  | nil => intro n h; cases h
  | cons x xs ih =>
      intro n h
      cases n with
      | zero => right; rfl
      | succ m =>
          rcases List.mem_cons.mp h with h1 | h2
          · left
            rw [h1, List.take_succ_cons]
            exact List.mem_cons_self x (xs.take m)
          · rcases ih m h2 with h3 | h4
            · left
              rw [List.take_succ_cons]
              exact List.mem_cons_of_mem x h3
            · right
              rw [List.take_succ_cons]
              simpa using h4

/-! ## Claim theorems -/

/-- C1: for every platform environment, constructing a `CmmandsUniversal`
raises before any field of the instance becomes usable — the `platformFS`
literal inside `_createUniversalFileSystem` evaluates
`this._createMobileFileSystem.bind(this)` although no such method exists on
the class (and `_createUniversalPath` and `_createSecurityEngine`, called
next, are missing too) — and consequently `initializeCMMANDS` never returns
an engine instance, leaving every public operation unreachable. -/
theorem constructor_always_throws :
    ∀ (p root : String) (fs : FsModel) (fuel : Nat),
      constructorRun p =
        Except.error "TypeError: this._createMobileFileSystem is undefined" ∧
      bindMethod "_createUniversalPath" =
        Except.error "TypeError: this._createUniversalPath is undefined" ∧
      bindMethod "_createSecurityEngine" =
        Except.error "TypeError: this._createSecurityEngine is undefined" ∧
      initializeCMMANDS p root fs fuel =
        Except.error "TypeError: this._createMobileFileSystem is undefined" :=
  fun _ _ _ _ => ⟨rfl, rfl, rfl, rfl⟩

/-- C2 counterexample: `executeCommand` raises instead of returning a result
— for an unregistered name it throws `Command not found`, and when the
looked-up action fails the failure is re-thrown, not converted to a
null/failed result. -/
theorem executeCommand_raises_cex :
    (executeCommand [] true "missing").1 =
      ExecOutcome.thrown "Command not found: missing" ∧
    (executeCommand [("boom", boomCmd)] true "boom").1 =
      ExecOutcome.thrown "kaboom" := by
  exact ⟨rfl, rfl⟩

/-- C2 amended: `executeCommand` never mutates the registry and computes at
most five suggestions for a missing name, but it then throws
`Command not found: <name>` rather than returning a result, and a failing
action's error is re-thrown to the caller rather than caught and converted. -/
theorem executeCommand_throws_amended :
    ∀ (reg : List (String × Cmd)) (name : String),
      (mapGet reg name = none →
        executeCommand reg true name =
          (ExecOutcome.thrown ("Command not found: " ++ name),
           findCommandSuggestions reg name) ∧
        (executeCommand reg true name).2.length ≤ 5) ∧
      (∀ (c : Cmd) (e : String), mapGet reg name = some c →
        c.action = Except.error e →
        (executeCommand reg true name).1 = ExecOutcome.thrown e) := by
  intro reg name
  constructor
  · intro h
    refine ⟨by simp [executeCommand, h], ?_⟩
    simp [executeCommand, h, findCommandSuggestions]
  · intro c e hc ha
    simp [executeCommand, hc, ha]

/-- C2 witness: the amended theorem applied at a concrete failing action and
at a concrete missing name. -/
theorem executeCommand_throws_amended_witness :
    (executeCommand [("boom", boomCmd)] true "boom").1 =
      ExecOutcome.thrown "kaboom" ∧
    (executeCommand [] true "missing").2.length ≤ 5 :=
  ⟨(executeCommand_throws_amended [("boom", boomCmd)] "boom").2 boomCmd
      "kaboom" (by decide) (by decide),
   ((executeCommand_throws_amended [] "missing").1 (by decide)).2⟩

/-- C6 counterexample: a read failure while re-tracking `/r/a.js` leaves the
previously stored `TrackedFile` entry in place — nothing removes it. -/
theorem readFailure_keeps_entry_cex :
    generateAdvancedCommandsFromFile "/r/a.js" none (ReadResult.err "EACCES")
      "javascript" emptyAnalysis [] none stWithA = ([], stWithA) ∧
    mapGet (generateAdvancedCommandsFromFile "/r/a.js" none
      (ReadResult.err "EACCES") "javascript" emptyAnalysis [] none
      stWithA).2.trackedFiles "/r/a.js" = some tfA := by
  exact ⟨rfl, rfl⟩

/-- C6 amended: on a content-read failure the tracker catches the error and
returns an empty command list without raising, but it leaves the whole
tracker state — including any existing `TrackedFile` entry for that path —
untouched rather than removing the entry. -/
theorem readFailure_state_unchanged_amended :
    ∀ (filePath msg language : String) (an : Analysis)
      (iss : List SecIssue) (pkg? : Option Pkg) (st : TrackState),
      generateAdvancedCommandsFromFile filePath none (ReadResult.err msg)
        language an iss pkg? st = ([], st) :=
  fun _ _ _ _ _ _ _ => rfl

/-- C9: running `refresh` twice with the same filesystem leaves the engine
state (command registry, tracked-file map, dependency graph and both caches)
identical to the state after the first run, and the second run synthesizes
no commands at all.  The idempotence is degenerate: `refresh` clears every
map and then `startTracking` always raises at the undefined
`this._findAllFiles`, so each run ends in the same cleared state. -/
theorem refresh_idempotent :
    ∀ (fs : FsModel) (fuel : Nat) (root : String) (st : EngineState),
      (refresh fs fuel root (refresh fs fuel root st).2.1).2.1 =
        (refresh fs fuel root st).2.1 ∧
      (refresh fs fuel root (refresh fs fuel root st).2.1).2.2 = [] :=
  fun _ _ _ _ => ⟨rfl, rfl⟩

/-- C10: after the inverse-edge pass, a node whose forward dependency list
is empty keeps an empty dependents set (additions happen only inside the
loop over the node's own forward dependencies), no matter how other nodes'
dependency strings refer to it. -/
theorem empty_deps_empty_dependents :
    ∀ (g : List DepNode) (f : DepNode), f ∈ g → f.dependencies = [] →
      dependentsStep g f = f ∧ dependentsStep g f ∈ buildDependents g ∧
      (f.dependents = [] → (dependentsStep g f).dependents = []) := by
  intro g f hmem hdep
  have hstep : dependentsStep g f = f := by
    simp [dependentsStep, hdep]
  refine ⟨hstep, ?_, fun h => by rw [hstep]; exact h⟩
  simpa [buildDependents] using List.mem_map_of_mem (dependentsStep g) hmem

/-- C10 witness: in the two-node graph `gAB`, node `nodeB` textually
references `nodeA`'s file name, yet `nodeA` (no forward dependencies) ends
the pass with an empty dependents set. -/
theorem empty_deps_empty_dependents_witness :
    dependentsStep gAB nodeA = nodeA ∧
    dependentsStep gAB nodeA ∈ buildDependents gAB ∧
    (dependentsStep gAB nodeA).dependents = [] := by
  have h := empty_deps_empty_dependents gAB nodeA (by decide) (by decide)
  exact ⟨h.1, h.2.1, h.2.2 (by decide)⟩

/-- C3 counterexample: tracking the empty file `a.txt` of the scenario
yields no commands at all — no `initialize` descriptor, no tracked-file
entry, and an empty registry — because `_generateAdvancedCommandsFromFile`
returns `[]` as soon as the content is empty. -/
theorem emptyFile_no_commands_cex :
    generateAdvancedCommandsFromFile "/r/a.txt" none (ReadResult.ok "")
      "text" emptyAnalysis [] none st0 = ([], st0) ∧
    (generateAdvancedCommandsFromFile "/r/a.txt" none (ReadResult.ok "")
      "text" emptyAnalysis [] none st0).2.commandRegistry = [] ∧
    (generateAdvancedCommandsFromFile "/r/a.txt" none (ReadResult.ok "")
      "text" emptyAnalysis [] none st0).2.trackedFiles = [] := by
  exact ⟨rfl, rfl, rfl⟩

/-- C3 amended: a file with empty content yields no commands and no tracked
entry (the state is returned untouched); a file with non-empty content
always receives at least two commands, the first of them the
`file:open:<normalized base name>` descriptor. -/
theorem synth_commands_amended :
    ∀ (filePath content language : String) (an : Analysis)
      (iss : List SecIssue) (pkg? : Option Pkg) (st : TrackState),
      (content = "" →
        generateAdvancedCommandsFromFile filePath none (ReadResult.ok content)
          language an iss pkg? st = ([], st)) ∧
      (content ≠ "" →
        2 ≤ (generateAdvancedCommandsFromFile filePath none
          (ReadResult.ok content) language an iss pkg? st).1.length ∧
        ((generateAdvancedCommandsFromFile filePath none
            (ReadResult.ok content) language an iss pkg? st).1.map
          Cmd.name).head? =
          some ("file:open:" ++ safeName (basenameNoExt (jsBasename
            filePath)))) := by
  intro filePath content language an iss pkg? st
  constructor
  · intro h
    subst h
    rfl
  · intro h
    have hbeq : (content == "") = false := by
      simpa using h
    constructor
    · simp [generateAdvancedCommandsFromFile, hbeq, createAdvancedCommands,
        cmdsFileOps]
    · simp [generateAdvancedCommandsFromFile, hbeq, createAdvancedCommands,
        cmdsFileOps]

/-- C3 witness: the amended theorem applied to the scenario's files — the
empty `a.txt` and the non-empty `b.js`. -/
theorem synth_commands_amended_witness :
    generateAdvancedCommandsFromFile "/r/a.txt" none (ReadResult.ok "")
      "text" emptyAnalysis [] none st0 = ([], st0) ∧
    2 ≤ (generateAdvancedCommandsFromFile "/r/b.js" none
      (ReadResult.ok "function foo(){}") "javascript" emptyAnalysis [] none
      st0).1.length :=
  ⟨(synth_commands_amended "/r/a.txt" "" "text" emptyAnalysis [] none
      st0).1 rfl,
   ((synth_commands_amended "/r/b.js" "function foo(){}" "javascript"
      emptyAnalysis [] none st0).2 (by decide)).1⟩

/-- C4 counterexample: registering the two names `"Open File"` and
`"open-file"` — which the claim says normalize identically and must collide
— produces two distinct registry entries, because registration stores each
`cmd.name` verbatim. -/
theorem registration_no_collision_cex :
    (registerAll [] [cmdOpenFileRaw, cmdOpenFileDash]).length = 2 ∧
    mapGet (registerAll [] [cmdOpenFileRaw, cmdOpenFileDash]) "Open File" =
      some cmdOpenFileRaw ∧
    mapGet (registerAll [] [cmdOpenFileRaw, cmdOpenFileDash]) "open-file" =
      some cmdOpenFileDash := by
  exact ⟨rfl, rfl, rfl⟩

/-- C4 amended: registration stores the command name verbatim — only
registrations under the byte-identical name collide, with the later one
overwriting the earlier (last write wins), while names that differ in any
character (such as `"Open File"` vs `"open-file"`) occupy separate entries;
the lower-case/dash normalization exists only in `safeName`, which is
applied to the file's base name when generated command names are built. -/
theorem registration_verbatim_amended :
    (∀ (m : List (String × Cmd)) (n : String) (c₁ c₂ : Cmd),
      mapGet (mapSet (mapSet m n c₁) n c₂) n = some c₂) ∧
    (∀ (n₁ n₂ : String) (c₁ c₂ : Cmd), n₁ ≠ n₂ →
      mapGet (mapSet (mapSet [] n₁ c₁) n₂ c₂) n₁ = some c₁ ∧
      mapGet (mapSet (mapSet [] n₁ c₁) n₂ c₂) n₂ = some c₂) ∧
    safeName "Open File" = "open-file" := by
  refine ⟨fun m n c₁ c₂ => mapGet_mapSet_self _ n c₂, ?_, by decide⟩
  intro n₁ n₂ c₁ c₂ h
  have hbeq : (n₁ == n₂) = false := by
    simpa using h
  constructor
  · simp [mapSet, mapGet, hbeq]
  · simp [mapSet, mapGet, hbeq]

/-- C4 witness: the amended theorem applied at the claim's two names — the
same raw name overwrites, the two distinct raw names coexist, and
`safeName` maps `"Open File"` to `"open-file"`. -/
theorem registration_verbatim_amended_witness :
    mapGet (mapSet (mapSet [] "open-file" cmdOpenFileRaw) "open-file"
      cmdOpenFileDash) "open-file" = some cmdOpenFileDash ∧
    mapGet (mapSet (mapSet [] "Open File" cmdOpenFileRaw) "open-file"
      cmdOpenFileDash) "Open File" = some cmdOpenFileRaw ∧
    safeName "Open File" = "open-file" :=
  ⟨registration_verbatim_amended.1 [] "open-file" cmdOpenFileRaw
      cmdOpenFileDash,
   (registration_verbatim_amended.2.1 "Open File" "open-file" cmdOpenFileRaw
      cmdOpenFileDash (by decide)).1,
   registration_verbatim_amended.2.2⟩

/-- C5 counterexample: the query `depliy` has normalized edit-distance
similarity 5/6 > 0.5 to the registered command `deploy`, yet
`_findCommandSuggestions` returns no suggestion at all — no edit-distance
criterion exists in the code, only substring/word containment. -/
theorem suggestions_no_editdistance_cex :
    specSimilarityAboveHalf "depliy" "deploy" = true ∧
    findCommandSuggestions [("deploy", deployCmd)] "depliy" = [] := by
  exact ⟨rfl, rfl⟩

/-- C5 amended: suggestions are at most five, selected in registry order by
the containment filter (query contained in lower-cased name or description,
or every `:`/`-`/`_`-separated fragment of the query contained in one of
them) with no similarity ranking; any registered command matching the
filter — in particular one whose name contains the query as a prefix — is
among the suggestions unless five earlier matches fill the list. -/
theorem suggestions_filter_amended :
    ∀ (reg : List (String × Cmd)) (q : String) (c : Cmd),
      (findCommandSuggestions reg q).length ≤ 5 ∧
      (c ∈ getCommands reg → matchesCmd (jsToLower q) c = true →
        c ∈ findCommandSuggestions reg q ∨
        (findCommandSuggestions reg q).length = 5) := by
  intro reg q c
  constructor
  · simp [findCommandSuggestions]
  · intro hc hm
    exact mem_take_or c ((getCommands reg).filter (matchesCmd (jsToLower q))) 5
      (List.mem_filter.mpr ⟨hc, hm⟩)

/-- C5 witness: the amended theorem applied to the query `deplo`, a prefix
of the registered name `deploy`: the command is suggested. -/
theorem suggestions_filter_amended_witness :
    (findCommandSuggestions [("deploy", deployCmd)] "deplo").length ≤ 5 ∧
    (deployCmd ∈ findCommandSuggestions [("deploy", deployCmd)] "deplo" ∨
      (findCommandSuggestions [("deploy", deployCmd)] "deplo").length = 5) :=
  ⟨(suggestions_filter_amended [("deploy", deployCmd)] "deplo"
      deployCmd).1,
   (suggestions_filter_amended [("deploy", deployCmd)] "deplo"
      deployCmd).2 (by decide) (by decide)⟩

/-- C7 counterexample: tracking a manifest with `scripts: {"build": ...}`
registers `run:build` — the fixed prefix is `run:`, not `npm-` — so
`executeCommand("npm-build")` is a "not found" throw; and the declared
dependencies yield a single `deps:audit` command, not per-dependency
`use-<dependency>` commands. -/
theorem manifest_wrong_prefix_cex :
    "run:build" ∈ pkgJsonCmds.map Cmd.name ∧
    "npm-build" ∉ pkgJsonCmds.map Cmd.name ∧
    "deps:audit" ∈ pkgJsonCmds.map Cmd.name ∧
    (∀ n ∈ pkgJsonCmds.map Cmd.name, jsStartsWith n "use-" = false) ∧
    (executeCommand (registerAll [] pkgJsonCmds) true "npm-build").1 =
      ExecOutcome.thrown "Command not found: npm-build" := by
  exact ⟨by decide, by decide, by decide, by decide, by decide⟩

/-- C7 amended: for a parseable manifest, every `scripts` key `k` yields a
registered command named `run:` + `k` (so `executeCommand("run:build")`
resolves), and a truthy dependency section yields the single `deps:audit`
command; no `use-<dependency>` commands exist. -/
theorem manifest_run_prefix_amended :
    ∀ (content language : String) (an : Analysis) (iss : List SecIssue)
      (scripts : List (String × String)) (hd : Bool) (k v : String),
      (k, v) ∈ scripts →
      ("run:" ++ k) ∈ (createAdvancedCommands "package.json" content
        language an iss (some ⟨scripts, hd⟩)).map
        Cmd.name ∧
      (hd = true → "deps:audit" ∈ (createAdvancedCommands "package.json"
        content language an iss (some ⟨scripts, hd⟩)).map Cmd.name) := by
  intro content language an iss scripts hd k v hkv
  have hrun : ("run:" ++ k) ∈
      (cmdsPkg "package.json" (some ⟨scripts, hd⟩)).map Cmd.name := by
    simp [cmdsPkg, List.mem_map, List.mem_append]
    exact Or.inl ⟨k, ⟨v, hkv⟩, rfl⟩
  constructor
  · simp only [createAdvancedCommands, List.map_append, List.mem_append]
    exact Or.inl (Or.inl (Or.inl (Or.inr hrun)))
  · intro hhd
    subst hhd
    have haudit : "deps:audit" ∈
        (cmdsPkg "package.json" (some ⟨scripts, true⟩)).map Cmd.name := by
      simp [cmdsPkg, List.mem_map, List.mem_append]
    simp only [createAdvancedCommands, List.map_append, List.mem_append]
    exact Or.inl (Or.inl (Or.inl (Or.inr haudit)))

/-- C7 witness: the amended theorem applied to the scenario's manifest. -/
theorem manifest_run_prefix_amended_witness :
    "run:build" ∈ (createAdvancedCommands "package.json" "{}" "json"
      emptyAnalysis [] (some ⟨[("build", "webpack")], true⟩)).map Cmd.name ∧
    "deps:audit" ∈ (createAdvancedCommands "package.json" "{}" "json"
      emptyAnalysis [] (some ⟨[("build", "webpack")], true⟩)).map Cmd.name :=
  ⟨(manifest_run_prefix_amended "{}" "json" emptyAnalysis []
      [("build", "webpack")] true "build" "webpack" (by decide)).1,
   (manifest_run_prefix_amended "{}" "json" emptyAnalysis []
      [("build", "webpack")] true "build" "webpack" (by decide)).2 rfl⟩

/-- C8 counterexample: the scan has no depth bound — on a pure directory
chain it lists a directory twelve levels below the root (more than the
claimed maximum of ten), in a run whose queue is exhausted, i.e. one the
source `while` loop completes. -/
theorem scan_depth_unbounded_cex :
    depth12Dir ∈ (scanRun chainFs 20 "r").visited ∧
    (scanRun chainFs 20 "r").queue = [] := by
  exact ⟨by decide, by decide⟩

/-- C8 amended: the traversal takes no `maxDepth` parameter at all: it
prunes exactly the directories named `node_modules`, `.git`, `dist`,
`build`, descends to any depth (a directory twelve levels down is listed in
a completed run), and on a filesystem whose every directory holds a
subdirectory — the footprint of a symlink cycle — its work queue never
empties, so termination relies solely on the tree being finite. -/
theorem scan_unbounded_amended :
    (depth12Dir ∈ (scanRun chainFs 20 "r").visited ∧
     (scanRun chainFs 20 "r").queue = []) ∧
    ("r/node_modules" ∉ (scanRun ignFs 20 "r").visited ∧
     "r/src" ∈ (scanRun ignFs 20 "r").visited) ∧
    (scanRun cycFs 12 "r").queue ≠ [] := by
  exact ⟨⟨by decide, by decide⟩, ⟨by decide, by decide⟩, by decide⟩

end Cmmands
